import Mathlib

/-!
Verification of the transcript discovery and extraction pipeline of
SourceShift/youtube-transcriber.

The TypeScript sources are shallowly embedded: JS strings become `String` or
`List Char`, JS numbers become `ℚ` (with `Option ℚ` where NaN can arise),
JS objects with optional fields become structures with `Option` fields,
JS records built by key assignment become association lists whose lookup
returns the value of the last assignment, and thrown exceptions become
`Except` errors. Prototype-chain inheritance of JS objects and the HTTP
transport are outside the model; network steps are passed in as oracles.
-/

/-- Truthiness of a JS string value that may be undefined: undefined and the
empty string are falsy, every other string is truthy. -/
def jsTruthyStr : Option String → Bool
  | none => false
  | some s => s != ""

/-- Models the JS idiom `x || d` for a possibly-undefined string `x`:
undefined and the empty string fall back to the default. -/
def jsOrDefault (x : Option String) (d : String) : String :=
  match x with
  | none => d
  | some s => if s = "" then d else s

/-- A JS record built by repeated key assignment, represented as the list of
assignments in order. Lookup returns the value of the last assignment to the
key (later assignments overwrite earlier ones), and is `none` when the key
was never assigned. -/
def recordGet {α : Type} (r : List (String × α)) (k : String) : Option α :=
  (r.reverse.find? (fun p => p.1 == k)).map (fun p => p.2)

-- ## Data model (src/transcripts.ts)

/-- Entry of the `translationLanguages` list of a track
(`src/transcripts.ts`, `TranslationLanguage`). -/
structure TranslationLanguage where
  language : String
  languageCode : String
deriving DecidableEq

/-- The `Transcript` descriptor (`src/transcripts.ts`, class `Transcript`).
The `httpClient` field is an external collaborator and is not modelled. -/
structure Transcript where
  videoId : String
  url : String
  language : String
  languageCode : String
  isGenerated : Bool
  translationLanguages : List TranslationLanguage
deriving DecidableEq

/-- The `translationLanguagesDict` field of `Transcript`: built with
`Object.fromEntries` over `(languageCode, language)` pairs, so a duplicated
code keeps the last pair. Represented as the assignment list; reads go
through `recordGet`. -/
def Transcript.translationLanguagesDict (t : Transcript) : List (String × String) :=
  t.translationLanguages.map (fun tl => (tl.languageCode, tl.language))

/-- Getter `isTranslatable` of `Transcript`. -/
def Transcript.isTranslatable (t : Transcript) : Bool :=
  t.translationLanguages.length > 0

/-- Errors thrown by `Transcript.translate`, each carrying the video id. -/
inductive TranslateErr where
  | notTranslatable (videoId : String)
  | translationLanguageNotAvailable (videoId : String)
deriving DecidableEq

/-- `Transcript.translate` (`src/transcripts.ts` lines 144-162). In this pure
embedding the receiver is passed by value, so it is left unchanged by
construction. -/
def Transcript.translate (t : Transcript) (languageCode : String) :
    Except TranslateErr Transcript :=
  if !t.isTranslatable then
    .error (.notTranslatable t.videoId)
  else
    match recordGet t.translationLanguagesDict languageCode with
    | none => .error (.translationLanguageNotAvailable t.videoId)
    | some language =>
        .ok { videoId := t.videoId
              url := t.url ++ "&tlang=" ++ languageCode
              language := language
              languageCode := languageCode
              isGenerated := true
              translationLanguages := [] }

/-- One entry of `captionsJson.captionTracks`. The `name.simpleText` chain is
collapsed into `name`; `kind` is the optional kind marker; `isTranslatable`
models the truthiness of the optional flag. -/
structure CaptionTrack where
  baseUrl : String
  name : String
  languageCode : String
  kind : Option String
  isTranslatable : Bool
deriving DecidableEq

/-- One entry of `captionsJson.translationLanguages`; `languageName.simpleText`
is collapsed into `languageName`. -/
structure TranslationLanguageJson where
  languageName : String
  languageCode : String
deriving DecidableEq

/-- The validated captions configuration object
(`playerCaptionsTracklistRenderer`). Both fields are optional in the raw
JSON. -/
structure CaptionsJson where
  captionTracks : Option (List CaptionTrack)
  translationLanguages : Option (List TranslationLanguageJson)
deriving DecidableEq

/-- The `TranscriptList` data model (`src/transcripts.ts`, class
`TranscriptList`). The two mappings are JS records, kept as assignment
lists. -/
structure TranscriptList where
  videoId : String
  manuallyCreatedTranscripts : List (String × Transcript)
  generatedTranscripts : List (String × Transcript)
  translationLanguages : List TranslationLanguage
deriving DecidableEq

/-- The `Transcript` constructed by the loop body of `TranscriptList.build`
for one caption track: generated iff the kind marker is "asr", and carrying
the global translation-language list only when the track is marked
translatable. -/
def trackTranscript (videoId : String) (translationLanguages : List TranslationLanguage)
    (caption : CaptionTrack) : Transcript :=
  { videoId := videoId
    url := caption.baseUrl
    language := caption.name
    languageCode := caption.languageCode
    isGenerated := caption.kind == some "asr"
    translationLanguages := if caption.isTranslatable then translationLanguages else [] }

/-- Loop body of `TranscriptList.build`: route the track to the generated
record when its kind is "asr", otherwise to the manually-created record
(assignment = append; lookup takes the last assignment). -/
def buildStep (videoId : String) (translationLanguages : List TranslationLanguage)
    (dicts : List (String × Transcript) × List (String × Transcript))
    (caption : CaptionTrack) :
    List (String × Transcript) × List (String × Transcript) :=
  let t : Transcript := trackTranscript videoId translationLanguages caption
  if caption.kind == some "asr" then
    (dicts.1, dicts.2 ++ [(caption.languageCode, t)])
  else
    (dicts.1 ++ [(caption.languageCode, t)], dicts.2)

/-- `TranscriptList.build` (`src/transcripts.ts` lines 183-218). -/
def TranscriptList.build (videoId : String) (captionsJson : CaptionsJson) :
    TranscriptList :=
  let translationLanguages : List TranslationLanguage :=
    (captionsJson.translationLanguages.getD []).map
      (fun tl => { language := tl.languageName, languageCode := tl.languageCode })
  let dicts := (captionsJson.captionTracks.getD []).foldl
    (buildStep videoId translationLanguages) ([], [])
  { videoId := videoId
    manuallyCreatedTranscripts := dicts.1
    generatedTranscripts := dicts.2
    translationLanguages := translationLanguages }

/-- Payload of the `NoTranscriptFound` error: the video id, the requested
language codes and the whole transcript list. -/
structure NoTranscriptFoundData where
  videoId : String
  requestedLanguageCodes : List String
  transcriptData : TranscriptList
deriving DecidableEq

/-- Inner loop of `findTranscriptInternal`: first record containing the code
wins. -/
def findInDicts (languageCode : String)
    (transcriptDicts : List (List (String × Transcript))) : Option Transcript :=
  match transcriptDicts with
  | [] => none
  | d :: rest =>
      match recordGet d languageCode with
      | some t => some t
      | none => findInDicts languageCode rest

/-- Outer loop of `findTranscriptInternal`: first language code that matches
in some searched record wins. -/
def findLoop (languageCodes : List String)
    (transcriptDicts : List (List (String × Transcript))) : Option Transcript :=
  match languageCodes with
  | [] => none
  | c :: rest =>
      match findInDicts c transcriptDicts with
      | some t => some t
      | none => findLoop rest transcriptDicts

/-- `TranscriptList.findTranscriptInternal` (`src/transcripts.ts` lines
248-261): nested loops over the preference list and the searched records,
throwing `NoTranscriptFound` with the original arguments when nothing
matches. -/
def TranscriptList.findTranscriptInternal (tl : TranscriptList)
    (languageCodes : List String)
    (transcriptDicts : List (List (String × Transcript))) :
    Except NoTranscriptFoundData Transcript :=
  match findLoop languageCodes transcriptDicts with
  | some t => .ok t
  | none => .error ⟨tl.videoId, languageCodes, tl⟩

/-- `TranscriptList.findTranscript`: searches the manually-created record,
then the generated record. -/
def TranscriptList.findTranscript (tl : TranscriptList)
    (languageCodes : List String) : Except NoTranscriptFoundData Transcript :=
  tl.findTranscriptInternal languageCodes
    [tl.manuallyCreatedTranscripts, tl.generatedTranscripts]

/-- `TranscriptList.findGeneratedTranscript`: searches only the generated
record. -/
def TranscriptList.findGeneratedTranscript (tl : TranscriptList)
    (languageCodes : List String) : Except NoTranscriptFoundData Transcript :=
  tl.findTranscriptInternal languageCodes [tl.generatedTranscripts]

/-- `TranscriptList.findManuallyCreatedTranscript`: searches only the
manually-created record. -/
def TranscriptList.findManuallyCreatedTranscript (tl : TranscriptList)
    (languageCodes : List String) : Except NoTranscriptFoundData Transcript :=
  tl.findTranscriptInternal languageCodes [tl.manuallyCreatedTranscripts]

-- ## Availability classifier (src/transcripts.ts lines 343-371)

/-- One run of the error screen subreason; `text` is optional. -/
structure SubreasonRun where
  text : Option String
deriving DecidableEq

/-- The `playabilityStatus` sub-object. The optional chain
`errorScreen?.playerErrorMessageRenderer?.subreason?.runs` is collapsed into
the single optional field `subreasonRuns`. -/
structure PlayabilityStatusData where
  status : Option String
  reason : Option String
  subreasonRuns : Option (List SubreasonRun)
deriving DecidableEq

/-- Outcome of `assertPlayability`: pass through, or one of the thrown typed
errors, each carrying the video id. -/
inductive PlayabilityOutcome where
  | pass
  | requestBlocked (videoId : String)
  | ageRestricted (videoId : String)
  | invalidVideoId (videoId : String)
  | videoUnavailable (videoId : String)
  | videoUnplayable (videoId : String) (reason : Option String) (subReasons : List String)
deriving DecidableEq

/-- The `PlayabilityFailedReason.BOT_DETECTED` enum string. -/
def botDetectedReason : String := "Sign in to confirm you\x27re not a bot"

/-- The `PlayabilityFailedReason.AGE_RESTRICTED` enum string. -/
def ageRestrictedReason : String := "Sign in to confirm your age"

/-- The `PlayabilityFailedReason.VIDEO_UNAVAILABLE` enum string. -/
def videoUnavailableReason : String := "Video unavailable"

/-- `TranscriptListFetcher.assertPlayability` (`src/transcripts.ts` lines
343-371). The guard `playabilityStatus && playabilityStatus !== OK` uses JS
truthiness, so an undefined or empty-string status passes through. Within
the guard: the two LOGIN_REQUIRED reason checks, then the ERROR and
"Video unavailable" check with the URL-shaped id split, and otherwise
`VideoUnplayable` carrying the reason and the defaulted run texts. -/
def assertPlayability (d : Option PlayabilityStatusData) (videoId : String) :
    PlayabilityOutcome :=
  match d with
  | none => .pass
  | some data =>
    if jsTruthyStr data.status && !(data.status == some "OK") then
      if data.status == some "LOGIN_REQUIRED" && data.reason == some botDetectedReason then
        .requestBlocked videoId
      else if data.status == some "LOGIN_REQUIRED" && data.reason == some ageRestrictedReason then
        .ageRestricted videoId
      else if data.status == some "ERROR" && data.reason == some videoUnavailableReason then
        if videoId.startsWith "http://" || videoId.startsWith "https://" then
          .invalidVideoId videoId
        else
          .videoUnavailable videoId
      else
        .videoUnplayable videoId data.reason
          ((data.subreasonRuns.getD []).map (fun run => jsOrDefault run.text ""))
    else .pass

-- ## Captions extraction step (src/transcripts.ts lines 320-341)

/-- The `captions` sub-object of the player response. -/
structure CaptionsContainer where
  playerCaptionsTracklistRenderer : Option CaptionsJson
deriving DecidableEq

/-- The parts of the parsed player response used after playability
validation. -/
structure VideoData where
  playabilityStatus : Option PlayabilityStatusData
  captions : Option CaptionsContainer
deriving DecidableEq

/-- The `TranscriptsDisabled` error, carrying the video id. -/
structure TranscriptsDisabledErr where
  videoId : String
deriving DecidableEq

/-- The captions step of `extractCaptionsJson` (`src/transcripts.ts` lines
335-340), run on the validated configuration object. The guard is
`!captionsJson?.captionTracks`: an undefined chain or an undefined
`captionTracks` field is falsy and throws `TranscriptsDisabled`; a present
`captionTracks` array is truthy even when it is empty. -/
def extractCaptionsStep (videoData : VideoData) (videoId : String) :
    Except TranscriptsDisabledErr CaptionsJson :=
  match videoData.captions.bind (fun c => c.playerCaptionsTracklistRenderer) with
  | none => .error ⟨videoId⟩
  | some captionsJson =>
      match captionsJson.captionTracks with
      | none => .error ⟨videoId⟩
      | some _ => .ok captionsJson

/-- Transcript-list discovery from the validated configuration object: the
captions step of `extractCaptionsJson` followed by `TranscriptList.build`
(as in `TranscriptListFetcher.fetch`). -/
def listFromVideoData (videoData : VideoData) (videoId : String) :
    Except TranscriptsDisabledErr TranscriptList :=
  (extractCaptionsStep videoData videoId).map (TranscriptList.build videoId)

-- ## Blocked-request retry orchestration (src/transcripts.ts lines 299-318)

/-- The slice of `ProxyConfig` the fetcher reads (src/proxies.ts):
the blocked-request retry budget. -/
structure ProxyCfg where
  retriesWhenBlocked : Nat
deriving DecidableEq

/-- Models `this.proxyConfig?.retriesWhenBlocked || 0`: an absent proxy
configuration (undefined chain) and a zero budget both give 0. -/
def effRetries : Option ProxyCfg → Nat
  | none => 0
  | some c => c.retriesWhenBlocked

/-- Errors that one discovery attempt can raise. `requestBlocked` and
`ipBlocked` (the latter a subclass of the former, so both pass
`instanceof RequestBlocked`) carry the mutable `proxyConfig` field of
`RequestBlocked`, initially null; `otherFailure` stands for every
non-blocked error kind. -/
inductive PipelineErr where
  | requestBlocked (videoId : String) (proxyConfig : Option ProxyCfg)
  | ipBlocked (videoId : String) (proxyConfig : Option ProxyCfg)
  | otherFailure (kind : String) (videoId : String)
deriving DecidableEq

/-- The `error instanceof RequestBlocked` test: true for `RequestBlocked`
and its subclass `IpBlocked`. -/
def isBlockedErr : PipelineErr → Bool
  | .requestBlocked _ _ => true
  | .ipBlocked _ _ => true
  | .otherFailure _ _ => false

/-- `RequestBlocked.withProxyConfig`: stores the proxy configuration on the
error. Non-blocked errors have no such method and are rethrown unchanged
(the fetcher only calls it on blocked errors anyway). -/
def withProxyConfig (e : PipelineErr) (cfg : Option ProxyCfg) : PipelineErr :=
  match e with
  | .requestBlocked v _ => .requestBlocked v cfg
  | .ipBlocked v _ => .ipBlocked v cfg
  | .otherFailure k v => .otherFailure k v

/-- `TranscriptListFetcher.fetchCaptionsJson` (`src/transcripts.ts` lines
299-318). The body `fetchVideoHtml` + `extractCaptionsJson` is passed in as
the oracle `attempt`, indexed by the try number. On a blocked error the
whole attempt is re-run with `tryNumber + 1` while
`tryNumber + 1 < retries`; once retries are exhausted the blocked error is
rethrown with `withProxyConfig` applied; non-blocked errors are rethrown
immediately. -/
def fetchCaptionsJson (proxyConfig : Option ProxyCfg)
    (attempt : Nat → Except PipelineErr CaptionsJson)
    (tryNumber : Nat) : Except PipelineErr CaptionsJson :=
  match attempt tryNumber with
  | .ok result => .ok result
  | .error e =>
    if isBlockedErr e then
      if h : tryNumber + 1 < effRetries proxyConfig then
        fetchCaptionsJson proxyConfig attempt (tryNumber + 1)
      else
        .error (withProxyConfig e proxyConfig)
    else .error e
termination_by effRetries proxyConfig - tryNumber
decreasing_by omega

-- ## Snippet parser (src/transcripts.ts lines 416-452)

/-- The digit value of a character, when it is a decimal digit. -/
def digitVal (c : Char) : Option Nat :=
  if c.isDigit then some (c.toNat - 48) else none

/-- Splits off a maximal run of leading decimal digits. -/
def takeDigits : List Char → List Nat × List Char
  | [] => ([], [])
  | c :: rest =>
      match digitVal c with
      | some d =>
          let p := takeDigits rest
          (d :: p.1, p.2)
      | none => ([], c :: rest)

/-- The natural number denoted by a digit list, most significant first. -/
def natOfDigits (ds : List Nat) : Nat :=
  ds.foldl (fun a d => a * 10 + d) 0

/-- Models the JS `parseFloat` builtin on decimal notation: skip leading
whitespace, read an optional sign, then digits with an optional fraction
part and an optional exponent part, parsing the longest valid numeric
prefix; `none` models NaN (no valid numeric prefix). The `Infinity`
spellings are not modelled. -/
def jsParseFloat (s : String) : Option ℚ :=
  let l := s.toList.dropWhile (fun c => c = ' ' ∨ c = '\t' ∨ c = '\n' ∨ c = '\r')
  let signed : ℚ × List Char :=
    match l with
    | c :: rest =>
        if c = '-' then (-1, rest) else if c = '+' then (1, rest) else (1, l)
    | [] => (1, [])
  let ip := takeDigits signed.2
  let fp : List Nat × List Char :=
    match ip.2 with
    | c :: rest => if c = '.' then takeDigits rest else ([], ip.2)
    | [] => ([], ip.2)
  if ip.1.isEmpty && fp.1.isEmpty then none
  else
    let mantissa : ℚ :=
      (natOfDigits ip.1 : ℚ) + (natOfDigits fp.1 : ℚ) / ((10 : ℚ) ^ fp.1.length)
    let value := signed.1 * mantissa
    match fp.2 with
    | c :: rest =>
        if c = 'e' ∨ c = 'E' then
          let esigned : Int × List Char :=
            match rest with
            | d :: rr =>
                if d = '-' then (-1, rr) else if d = '+' then (1, rr) else (1, rest)
            | [] => (1, rest)
          let ep := takeDigits esigned.2
          if ep.1.isEmpty then some value
          else some (value * (10 : ℚ) ^ (esigned.1 * (natOfDigits ep.1 : Int)))
        else some value
    | [] => some value

/-- One text-bearing DOM node handed to the parser: its `textContent` (null
only for non-element nodes) and its `start` and `dur` attributes
(`getAttribute` yields null when absent). -/
structure TextElement where
  textContent : Option String
  startAttr : Option String
  durAttr : Option String
deriving DecidableEq

/-- `FetchedTranscriptSnippet` (src/transcripts.ts). The numeric fields hold
`none` when the JS number is NaN. -/
structure FetchedTranscriptSnippet where
  text : String
  start : Option ℚ
  duration : Option ℚ
deriving DecidableEq

/-- `TranscriptParser.parse` (`src/transcripts.ts` lines 436-451). The
selected text elements are the input list (document order); the markup
stripping `text.replace(this.htmlRegex, "")` is passed in as `clean`.
Elements whose `textContent` is null are filtered out; `start` is
`parseFloat(getAttribute("start") || "0")` and `duration` is
`parseFloat(getAttribute("dur") || "0.0")`. -/
def transcriptParserParse (clean : String → String) (elements : List TextElement) :
    List FetchedTranscriptSnippet :=
  (elements.filter (fun e => e.textContent.isSome)).map (fun e =>
    { text := clean (e.textContent.getD "")
      start := jsParseFloat (jsOrDefault e.startAttr "0")
      duration := jsParseFloat (jsOrDefault e.durAttr "0.0") })

-- ## Embedded-variable extractor (src/transcripts.ts lines 454-523)

/-- The opening brace character. -/
def braceL : Char := '\x7b'

/-- The closing brace character. -/
def braceR : Char := '\x7d'

/-- Finds the first occurrence of `needle` in `hay` and returns the parts
before and after it; `none` when `needle` does not occur (or `hay` is
empty). This is the single splitting step of the JS `String.split`
builtin. -/
def splitFirst (needle : List Char) : List Char → Option (List Char × List Char)
  | [] => none
  | c :: rest =>
      if needle.isPrefixOf (c :: rest) then
        some ([], (c :: rest).drop needle.length)
      else
        match splitFirst needle rest with
        | none => none
        | some p => some (c :: p.1, p.2)

/-- Fueled worker for `jsSplit`; the fuel bounds the number of splits and is
always sufficient for a nonempty needle. -/
def splitAllGas (needle : List Char) : Nat → List Char → List (List Char)
  | 0, hay => [hay]
  | gas + 1, hay =>
      match splitFirst needle hay with
      | none => [hay]
      | some p => p.1 :: splitAllGas needle gas p.2

/-- Models the JS `String.split` builtin with a nonempty string separator:
the list of the segments between consecutive non-overlapping occurrences of
the separator, scanned left to right. -/
def jsSplit (hay needle : List Char) : List (List Char) :=
  splitAllGas needle (hay.length + 1) hay

/-- Models `indexOf(braceL)` followed by `substring(jsonStart)`: the suffix
of the input starting at its first opening brace, or `none` when the input
has no opening brace. -/
def dropUntilBrace : List Char → Option (List Char)
  | [] => none
  | c :: rest => if c = braceL then some (c :: rest) else dropUntilBrace rest

/-- The scanning loop of `JsVarParser.parse` (`src/transcripts.ts` lines
480-510), started after the initial opening brace. Mirrors the loop state:
the running `openBraces` and `closeBraces` counts, the `inQuotes` flag and
the `escaped` flag; the three `continue` branches skip the balance check.
Returns the scanned characters up to and including the character at which
`openBraces === closeBraces` first held, or `none` when the input ends
first (`endIndex` stays 0 and the parser throws). -/
def scanBody (openBraces closeBraces : Nat) (inQuotes escaped : Bool) :
    List Char → Option (List Char)
  | [] => none
  | c :: rest =>
      if escaped then
        (scanBody openBraces closeBraces inQuotes false rest).map (fun l => c :: l)
      else if c = '\\' then
        (scanBody openBraces closeBraces inQuotes true rest).map (fun l => c :: l)
      else if c = '"' then
        (scanBody openBraces closeBraces (!inQuotes) escaped rest).map (fun l => c :: l)
      else
        let ob := if !inQuotes && c = braceL then openBraces + 1 else openBraces
        let cb := if !inQuotes && c = braceR then closeBraces + 1 else closeBraces
        if ob = cb then some [c]
        else (scanBody ob cb inQuotes escaped rest).map (fun l => c :: l)

/-- The balanced-object extraction of `JsVarParser.parse` applied to
`jsonStr` (which starts at the first opening brace): the first character is
consumed by the initialisation `openBraces = 1`, and the loop starts at
index 1. Returns `jsonStr.substring(0, endIndex)`, or `none` when the loop
ends with `endIndex` still 0. -/
def extractBalanced (jsonStr : List Char) : Option (List Char) :=
  match jsonStr with
  | [] => none
  | c :: rest => (scanBody 1 0 false false rest).map (fun l => c :: l)

/-- The extraction part of `JsVarParser.parse` (`src/transcripts.ts` lines
461-516), up to the `JSON.parse` call: split the page on
`"var " + varName`; fail unless a second segment exists; within it, fail
unless an opening brace is found; fail unless the brace scan balances;
otherwise return the delimited substring `jsonData`. -/
def jsVarParseRaw (varName rawHtml : List Char) : Option (List Char) :=
  let needle := "var ".toList ++ varName
  match (jsSplit rawHtml needle)[1]? with
  | none => none
  | some seg =>
      match dropUntilBrace seg with
      | none => none
      | some jsonStr => extractBalanced jsonStr

/-- `JsVarParser.parse` (`src/transcripts.ts` lines 461-522): the extraction
followed by `JSON.parse`, which is passed in as `jsonParse` (`none` models a
parse exception). Every failure throws `YouTubeDataUnparsable` carrying the
video id, modelled as `.error videoId`. -/
def jsVarParse {J : Type} (jsonParse : List Char → Option J)
    (varName rawHtml : List Char) (videoId : String) : Except String J :=
  match jsVarParseRaw varName rawHtml with
  | none => .error videoId
  | some jsonData =>
      match jsonParse jsonData with
      | none => .error videoId
      | some v => .ok v

/-- The variable name used for the player response. -/
def ytVarName : List Char := "ytInitialPlayerResponse".toList

/-- The split needle for the player response variable. -/
def ytNeedle : List Char := "var ytInitialPlayerResponse".toList

-- ## Formatters (src/formatters.ts)

/-- The snippet interface the formatter module declares for itself
(forward declaration in src/formatters.ts). NaN is outside this model: a
rendered transcript carries actual numbers. -/
structure FmtSnippet where
  text : String
  start : ℚ
  duration : ℚ
deriving DecidableEq

/-- Truncation toward zero, as used by the JS remainder operator. -/
def ratTrunc (q : ℚ) : Int :=
  if 0 ≤ q then Int.floor q else Int.ceil q

/-- The JS remainder operator on numbers: the remainder has the sign of the
dividend. -/
def jsMod (a b : ℚ) : ℚ :=
  a - b * (ratTrunc (a / b) : ℚ)

/-- The JS `Math.round` builtin: round half toward positive infinity. -/
def jsRound (q : ℚ) : Int :=
  Int.floor (q + 1 / 2)

/-- The JS `String.padStart` builtin. -/
def padStart (s : String) (n : Nat) (c : Char) : String :=
  if n ≤ s.length then s
  else String.mk (List.replicate (n - s.length) c) ++ s

/-- The three abstract methods of `TextBasedFormatter`. -/
structure TextBasedFormatterImpl where
  formatTimestamp : Int → Int → Int → Int → String
  formatTranscriptHeader : List String → String
  formatTranscriptHelper : Nat → String → FmtSnippet → String

/-- `TextBasedFormatter.secondsToTimestamp` (src/formatters.ts lines 69-80).
The initial `parseFloat(time.toString())` round-trip is the identity on
numbers and is omitted; the redundant second `Math.floor` on the already
integral hours, minutes and seconds is the identity and is folded in. -/
def secondsToTimestamp (f : TextBasedFormatterImpl) (time : ℚ) : String :=
  let hours := Int.floor (time / 3600)
  let remainder := jsMod time 3600
  let mins := Int.floor (remainder / 60)
  let secs := Int.floor (jsMod remainder 60)
  let ms := jsRound ((time - (Int.floor time : ℚ)) * 1000)
  f.formatTimestamp hours mins secs ms

/-- The cue-building loop of `TextBasedFormatter.formatTranscript`
(src/formatters.ts lines 82-94): for each index, the cue end is
`start + duration`, replaced by the next snippet start when a next snippet
exists and starts earlier; the helper renders the cue line. -/
def textBasedLines (f : TextBasedFormatterImpl) (snippets : List FmtSnippet) :
    List String :=
  (List.range snippets.length).map (fun i =>
    match snippets[i]? with
    | none => ""
    | some line =>
        let e := line.start + line.duration
        let nextStart :=
          match snippets[i + 1]? with
          | some nxt => if nxt.start < e then nxt.start else e
          | none => e
        let timeText :=
          secondsToTimestamp f line.start ++ " --> " ++ secondsToTimestamp f nextStart
        f.formatTranscriptHelper i timeText line)

/-- `TextBasedFormatter.formatTranscript`: the cue lines passed to the
header renderer. -/
def formatTranscript (f : TextBasedFormatterImpl) (snippets : List FmtSnippet) :
    String :=
  f.formatTranscriptHeader (textBasedLines f snippets)

/-- The `SRTFormatter` overrides (src/formatters.ts lines 97-109). -/
def srtFormatter : TextBasedFormatterImpl where
  formatTimestamp h m s ms :=
    padStart (toString h) 2 '0' ++ ":" ++ padStart (toString m) 2 '0' ++ ":" ++
      padStart (toString s) 2 '0' ++ "," ++ padStart (toString ms) 3 '0'
  formatTranscriptHeader lines := String.intercalate "\n\n" lines ++ "\n"
  formatTranscriptHelper i timeText snippet :=
    toString (i + 1) ++ "\n" ++ timeText ++ "\n" ++ snippet.text

/-- The `WebVTTFormatter` overrides (src/formatters.ts lines 111-123). -/
def webvttFormatter : TextBasedFormatterImpl where
  formatTimestamp h m s ms :=
    padStart (toString h) 2 '0' ++ ":" ++ padStart (toString m) 2 '0' ++ ":" ++
      padStart (toString s) 2 '0' ++ "." ++ padStart (toString ms) 3 '0'
  formatTranscriptHeader lines := "WEBVTT\n\n" ++ String.intercalate "\n\n" lines ++ "\n"
  formatTranscriptHelper _i timeText snippet := timeText ++ "\n" ++ snippet.text

-- ## Claim-side definitions (stated from the wording of the spec)

/-- Stated from the spec, for comparison with `assertPlayability`: the
decision table of the availability classifier, amended so that an
empty-string status also passes through (JS truthiness). -/
def specClassifyPlayability (d : Option PlayabilityStatusData) (videoId : String) :
    PlayabilityOutcome :=
  match d with
  | none => .pass
  | some data =>
      match data.status with
      | none => .pass
      | some st =>
          if st = "" ∨ st = "OK" then .pass
          else if st = "LOGIN_REQUIRED" ∧ data.reason = some botDetectedReason then
            .requestBlocked videoId
          else if st = "LOGIN_REQUIRED" ∧ data.reason = some ageRestrictedReason then
            .ageRestricted videoId
          else if st = "ERROR" ∧ data.reason = some videoUnavailableReason then
            if videoId.startsWith "http://" ∨ videoId.startsWith "https://" then
              .invalidVideoId videoId
            else .videoUnavailable videoId
          else
            .videoUnplayable videoId data.reason
              ((data.subreasonRuns.getD []).map (fun run => jsOrDefault run.text ""))

/-- Stated from the spec, for comparison with `findTranscript`: the earliest
code of the preference list present in either mapping wins, and within a
code the manually-created mapping is preferred over the generated one. -/
def specFindEither (tl : TranscriptList) (languageCodes : List String) :
    Option Transcript :=
  match languageCodes.find? (fun c =>
      (recordGet tl.manuallyCreatedTranscripts c).isSome ||
      (recordGet tl.generatedTranscripts c).isSome) with
  | none => none
  | some c =>
      match recordGet tl.manuallyCreatedTranscripts c with
      | some t => some t
      | none => recordGet tl.generatedTranscripts c

/-- Stated from the spec, for comparison with the single-mapping variants:
the earliest code of the preference list present in the one searched
mapping wins. -/
def specFindSingle (dict : List (String × Transcript)) (languageCodes : List String) :
    Option Transcript :=
  match languageCodes.find? (fun c => (recordGet dict c).isSome) with
  | none => none
  | some c => recordGet dict c

/-- Stated from the spec, for comparison with the parsed snippet fields: the
start value read from the `start` attribute, amended per the counterexample:
the default 0 applies when the attribute is absent or empty, and a non-empty
unparsable attribute yields NaN (`none`). -/
def specStartVal (e : TextElement) : Option ℚ :=
  match e.startAttr with
  | none => some 0
  | some s => if s = "" then some 0 else jsParseFloat s

/-- Stated from the spec, for comparison with the parsed snippet fields: the
duration value read from the `dur` attribute, amended the same way. -/
def specDurVal (e : TextElement) : Option ℚ :=
  match e.durAttr with
  | none => some 0
  | some s => if s = "" then some 0 else jsParseFloat s

/-- Stated from the spec, for comparison with the rendered cue lines: the
end timestamp value of cue `i` is the snippet start plus its duration,
clamped down to the next snippet start when a next snippet exists and
starts earlier. -/
def specCueEnd (snippets : List FmtSnippet) (i : Nat) (line : FmtSnippet) : ℚ :=
  match snippets[i + 1]? with
  | some nxt =>
      if nxt.start < line.start + line.duration then nxt.start
      else line.start + line.duration
  | none => line.start + line.duration

/-- Stated from the spec, for comparison with `scanBody`: the forward scan
of the extractor description, tracking one brace-depth counter, the
in-string flag and the escape flag; braces inside quoted strings do not
change the depth and an escaped quote does not toggle the in-string state;
the scan stops where the depth returns to zero. -/
def specScan (depth : Nat) (inString escaped : Bool) :
    List Char → Option (List Char)
  | [] => none
  | c :: rest =>
      if escaped then
        (specScan depth inString false rest).map (fun l => c :: l)
      else if c = '\\' then
        (specScan depth inString true rest).map (fun l => c :: l)
      else if c = '"' then
        (specScan depth (!inString) escaped rest).map (fun l => c :: l)
      else
        let d2 := if !inString && c = braceL then depth + 1
                  else if !inString && c = braceR then depth - 1
                  else depth
        if d2 = 0 then some [c]
        else (specScan d2 inString escaped rest).map (fun l => c :: l)

/-- Stated from the spec: the brace-balanced object delimited at the front
of the input, which must start with an opening brace; the object ends at the
matching closing brace where the depth returns to zero. -/
def specDelimit (jsonStr : List Char) : Option (List Char) :=
  match jsonStr with
  | [] => none
  | c :: rest =>
      if c = braceL then (specScan 1 false false rest).map (fun l => c :: l)
      else none

-- ## Helper lemmas

/-- The nested find loop over the pair of records equals the
first-matching-code search of the spec description. -/
theorem findLoop_pair (m g : List (String × Transcript)) (codes : List String) :
    findLoop codes [m, g] =
      match codes.find? (fun c => (recordGet m c).isSome || (recordGet g c).isSome) with
      | none => none
      | some c =>
          match recordGet m c with
          | some t => some t
          | none => recordGet g c := by
  induction codes with
  | nil => rfl
  | cons c rest ih =>
      simp only [findLoop, findInDicts]
      rcases hm : recordGet m c with _ | t
      · rcases hg : recordGet g c with _ | t
        · rw [List.find?_cons_of_neg]
          · exact ih
          · simp [hm, hg]
        · rw [List.find?_cons_of_pos]
          · simp [hm, hg]
          · simp [hg]
      · rw [List.find?_cons_of_pos]
        · simp [hm]
        · simp [hm]

/-- The find loop over a single record equals the first-matching-code search
of the spec description. -/
theorem findLoop_single (d : List (String × Transcript)) (codes : List String) :
    findLoop codes [d] =
      match codes.find? (fun c => (recordGet d c).isSome) with
      | none => none
      | some c => recordGet d c := by
  induction codes with
  | nil => rfl
  | cons c rest ih =>
      simp only [findLoop, findInDicts]
      rcases hm : recordGet d c with _ | t
      · rw [List.find?_cons_of_neg]
        · exact ih
        · simp [hm]
      · rw [List.find?_cons_of_pos]
        · simp [hm]
        · simp [hm]

-- ## Claim theorems

/-- C3: for every TranscriptList and non-empty preference list,
`findTranscript` returns the transcript of the earliest listed code present
in either mapping, preferring the manually-created mapping within a code;
the generated-only and manual-only variants search their single mapping; and
when no listed code is present in any searched mapping, the call fails with
no-transcript-found carrying the requested codes and the list. -/
theorem claim_C3_selection (tl : TranscriptList) (codes : List String)
    (hne : codes ≠ []) :
    (tl.findTranscript codes =
      match specFindEither tl codes with
      | some t => .ok t
      | none => .error ⟨tl.videoId, codes, tl⟩)
  ∧ (tl.findGeneratedTranscript codes =
      match specFindSingle tl.generatedTranscripts codes with
      | some t => .ok t
      | none => .error ⟨tl.videoId, codes, tl⟩)
  ∧ (tl.findManuallyCreatedTranscript codes =
      match specFindSingle tl.manuallyCreatedTranscripts codes with
      | some t => .ok t
      | none => .error ⟨tl.videoId, codes, tl⟩) := by
  refine ⟨?_, ?_, ?_⟩
  · unfold TranscriptList.findTranscript TranscriptList.findTranscriptInternal specFindEither
    rw [findLoop_pair]
  · unfold TranscriptList.findGeneratedTranscript TranscriptList.findTranscriptInternal
      specFindSingle
    rw [findLoop_single]
  · unfold TranscriptList.findManuallyCreatedTranscript TranscriptList.findTranscriptInternal
      specFindSingle
    rw [findLoop_single]

/-- Witness for C3: the preference-order example of the spec, a list holding
a manual "en" track and a generated "de" track queried with
preference ["de", "en"]. -/
theorem claim_C3_selection_witness :
    (TranscriptList.findTranscript
        ⟨"v", [("en", ⟨"v", "uEn", "English", "en", false, []⟩)],
          [("de", ⟨"v", "uDe", "German", "de", true, []⟩)], []⟩ ["de", "en"] =
      .ok ⟨"v", "uDe", "German", "de", true, []⟩)
  ∧ (TranscriptList.findManuallyCreatedTranscript
        ⟨"v", [("en", ⟨"v", "uEn", "English", "en", false, []⟩)],
          [("de", ⟨"v", "uDe", "German", "de", true, []⟩)], []⟩ ["de"] =
      .error ⟨"v", ["de"],
        ⟨"v", [("en", ⟨"v", "uEn", "English", "en", false, []⟩)],
          [("de", ⟨"v", "uDe", "German", "de", true, []⟩)], []⟩⟩) := by
  constructor
  · have h := claim_C3_selection
      ⟨"v", [("en", ⟨"v", "uEn", "English", "en", false, []⟩)],
        [("de", ⟨"v", "uDe", "German", "de", true, []⟩)], []⟩ ["de", "en"] (by decide)
    rw [h.1]
    rfl
  · have h := claim_C3_selection
      ⟨"v", [("en", ⟨"v", "uEn", "English", "en", false, []⟩)],
        [("de", ⟨"v", "uDe", "German", "de", true, []⟩)], []⟩ ["de"] (by decide)
    rw [h.2.2]
    rfl

/-- C4: `translate` fails with not-translatable on an empty translation set,
fails with translation-language-unavailable when the code is absent from the
set, and otherwise returns a new Transcript whose URL gains the
translation-target parameter, whose language fields equal the target, whose
generated flag is true and whose own translation set is empty. The receiver
is a value in this pure embedding, so it is unchanged by construction. -/
theorem claim_C4_translate (t : Transcript) (code : String) :
    (t.translationLanguages = [] →
      t.translate code = .error (.notTranslatable t.videoId))
  ∧ (t.translationLanguages ≠ [] →
      recordGet t.translationLanguagesDict code = none →
      t.translate code = .error (.translationLanguageNotAvailable t.videoId))
  ∧ (∀ lang, recordGet t.translationLanguagesDict code = some lang →
      t.translate code =
        .ok { videoId := t.videoId
              url := t.url ++ "&tlang=" ++ code
              language := lang
              languageCode := code
              isGenerated := true
              translationLanguages := [] }) := by
  refine ⟨?_, ?_, ?_⟩
  · intro h
    simp [Transcript.translate, Transcript.isTranslatable, h]
  · intro hne hnone
    have hlen : 0 < t.translationLanguages.length := List.length_pos.mpr hne
    simp [Transcript.translate, Transcript.isTranslatable, hlen, hnone]
  · intro lang hsome
    have hne : t.translationLanguages ≠ [] := by
      intro h
      rw [show t.translationLanguagesDict = [] by
        simp [Transcript.translationLanguagesDict, h]] at hsome
      simp [recordGet] at hsome
    have hlen : 0 < t.translationLanguages.length := List.length_pos.mpr hne
    simp [Transcript.translate, Transcript.isTranslatable, hlen, hsome]

/-- Witness for C4: the three behaviours at concrete transcripts. -/
theorem claim_C4_translate_witness :
    (Transcript.translate ⟨"v", "u", "English", "en", false, []⟩ "de" =
      .error (.notTranslatable "v"))
  ∧ (Transcript.translate ⟨"v", "u", "English", "en", false, [⟨"German", "de"⟩]⟩ "zz" =
      .error (.translationLanguageNotAvailable "v"))
  ∧ (Transcript.translate ⟨"v", "u", "English", "en", false, [⟨"German", "de"⟩]⟩ "de" =
      .ok { videoId := "v"
            url := "u" ++ "&tlang=" ++ "de"
            language := "German"
            languageCode := "de"
            isGenerated := true
            translationLanguages := [] }) :=
  ⟨(claim_C4_translate ⟨"v", "u", "English", "en", false, []⟩ "de").1 rfl,
   (claim_C4_translate ⟨"v", "u", "English", "en", false, [⟨"German", "de"⟩]⟩ "zz").2.1
     (by decide) (by decide),
   (claim_C4_translate ⟨"v", "u", "English", "en", false, [⟨"German", "de"⟩]⟩ "de").2.2
     "German" (by decide)⟩

/-- C2 (amended): the availability classifier agrees with the decision table
for every input, with the pass-through cases being an OK, absent, or empty
status: LOGIN_REQUIRED with the bot-detection reason raises request-blocked,
LOGIN_REQUIRED with the age reason raises age-restricted, ERROR with reason
"Video unavailable" splits on whether the id is URL-shaped, every other
non-OK non-empty status raises video-unplayable with the reason and the
defaulted subreason run texts. -/
theorem claim_C2_playability (d : Option PlayabilityStatusData) (videoId : String) :
    assertPlayability d videoId = specClassifyPlayability d videoId := by
  rcases d with _ | ⟨st, reason, runs⟩
  · rfl
  rcases st with _ | s
  · rfl
  by_cases hs : s = ""
  · subst hs
    rfl
  by_cases hOK : s = "OK"
  · subst hOK
    rfl
  simp only [assertPlayability, specClassifyPlayability, jsTruthyStr]
  have hgate : ((s != "") && !((some s : Option String) == some "OK")) = true := by
    simp [hs, hOK]
  rw [if_pos hgate, if_neg (show ¬(s = "" ∨ s = "OK") by simp [hs, hOK])]
  by_cases hLR : s = "LOGIN_REQUIRED"
  · subst hLR
    by_cases hb : reason = some botDetectedReason
    · simp [hb]
    · by_cases ha : reason = some ageRestrictedReason
      · simp [hb, ha]
      · simp [hb, ha]
  · by_cases hE : s = "ERROR"
    · subst hE
      by_cases hu : reason = some videoUnavailableReason
      · simp [hLR, hu]
      · simp [hLR, hu]
    · simp [hLR, hE]

/-- Counterexample for C2: a present empty-string playability status is
non-OK, so the claim as stated demands video-unplayable, but the classifier
passes it through (JS truthiness makes the guard false). -/
theorem claim_C2_playability_counterexample :
    assertPlayability (some ⟨some "", none, none⟩) "v" = .pass
  ∧ (PlayabilityOutcome.pass ≠ .videoUnplayable "v" none []) := by
  constructor
  · rfl
  · decide


/-- C5 (amended): from the validated configuration object, discovery fails
with transcripts-disabled exactly when the caption-track list is absent
(missing captions container, missing renderer, or missing track-list
field); when the track list is present — even empty — a TranscriptList is
built from it. -/
theorem claim_C5_disabled (vd : VideoData) (videoId : String) :
    (listFromVideoData vd videoId = .error ⟨videoId⟩ ↔
      (vd.captions.bind (fun c => c.playerCaptionsTracklistRenderer)).bind
        (fun cj => cj.captionTracks) = none)
  ∧ (∀ cj tracks,
      vd.captions.bind (fun c => c.playerCaptionsTracklistRenderer) = some cj →
      cj.captionTracks = some tracks →
      listFromVideoData vd videoId = .ok (TranscriptList.build videoId cj)) := by
  constructor
  · rcases hch : vd.captions.bind (fun c => c.playerCaptionsTracklistRenderer) with _ | cj
    · simp [listFromVideoData, extractCaptionsStep, Except.map, hch]
    · rcases htr : cj.captionTracks with _ | tracks
      · simp [listFromVideoData, extractCaptionsStep, Except.map, hch, htr]
      · simp [listFromVideoData, extractCaptionsStep, Except.map, hch, htr]
  · intro cj tracks hch htr
    simp [listFromVideoData, extractCaptionsStep, Except.map, hch, htr]

/-- Witness for C5: a present but empty track list builds an (empty)
TranscriptList. -/
theorem claim_C5_disabled_witness :
    listFromVideoData ⟨none, some ⟨some ⟨some [], none⟩⟩⟩ "v" =
      .ok (TranscriptList.build "v" ⟨some [], none⟩) :=
  (claim_C5_disabled ⟨none, some ⟨some ⟨some [], none⟩⟩⟩ "v").2
    ⟨some [], none⟩ [] rfl rfl

/-- Counterexample for C5: the claim says a present-but-empty caption-track
list fails with transcripts-disabled, but the guard is JS truthiness of the
array, and an empty array is truthy: discovery succeeds. -/
theorem claim_C5_disabled_counterexample :
    extractCaptionsStep ⟨none, some ⟨some ⟨some [], none⟩⟩⟩ "v" =
      .ok ⟨some [], none⟩
  ∧ ((Except.ok ⟨some [], none⟩ : Except TranscriptsDisabledErr CaptionsJson) ≠
      .error ⟨"v"⟩) := by
  refine ⟨rfl, fun h => Except.noConfusion h⟩

-- ## Record-membership lemmas for the build partition

/-- A record contains a key exactly when some assignment used it. -/
theorem recordGet_isSome_iff {α : Type} (r : List (String × α)) (k : String) :
    (recordGet r k).isSome = true ↔ ∃ p ∈ r, p.1 = k := by
  unfold recordGet
  rw [show (Option.map (fun p => p.2)
        (List.find? (fun p => p.1 == k) r.reverse)).isSome =
      (List.find? (fun (p : String × α) => p.1 == k) r.reverse).isSome from by
    cases List.find? (fun (p : String × α) => p.1 == k) r.reverse <;> rfl]
  rw [List.find?_isSome]
  constructor
  · rintro ⟨p, hp, hk⟩
    exact ⟨p, List.mem_reverse.mp hp, by simpa using hk⟩
  · rintro ⟨p, hp, hk⟩
    exact ⟨p, List.mem_reverse.mpr hp, by simpa using hk⟩

/-- Appending one assignment adds exactly its key to the record. -/
theorem recordGet_append_single_isSome {α : Type} (r : List (String × α))
    (k2 : String) (v : α) (k : String) :
    (recordGet (r ++ [(k2, v)]) k).isSome = true ↔
      (recordGet r k).isSome = true ∨ k2 = k := by
  rw [recordGet_isSome_iff, recordGet_isSome_iff]
  constructor
  · rintro ⟨p, hp, hk⟩
    rcases List.mem_append.mp hp with hp | hp
    · exact Or.inl ⟨p, hp, hk⟩
    · rcases List.mem_singleton.mp hp with rfl
      exact Or.inr hk
  · rintro (⟨p, hp, hk⟩ | h)
    · exact ⟨p, List.mem_append_left _ hp, hk⟩
    · exact ⟨_, List.mem_append_right _ (List.mem_singleton.mpr rfl), h⟩

/-- The effect of the build loop body on an asr track. -/
theorem buildStep_asr (videoId : String) (tls : List TranslationLanguage)
    (d : List (String × Transcript) × List (String × Transcript))
    (c : CaptionTrack) (hk : (c.kind == some "asr") = true) :
    buildStep videoId tls d c =
      (d.1, d.2 ++ [(c.languageCode, trackTranscript videoId tls c)]) := by
  simp [buildStep, hk]

/-- The effect of the build loop body on a non-asr track. -/
theorem buildStep_manual (videoId : String) (tls : List TranslationLanguage)
    (d : List (String × Transcript) × List (String × Transcript))
    (c : CaptionTrack) (hk : ¬(c.kind == some "asr") = true) :
    buildStep videoId tls d c =
      (d.1 ++ [(c.languageCode, trackTranscript videoId tls c)], d.2) := by
  simp [buildStep, hk]

/-- Keys of the manually-created record accumulated by the build fold: the
initial keys plus the codes of the non-asr tracks. -/
theorem buildFold_fst_isSome (videoId : String) (tls : List TranslationLanguage)
    (code : String) :
    ∀ (tracks : List CaptionTrack)
      (m0 g0 : List (String × Transcript)),
      ((recordGet (tracks.foldl (buildStep videoId tls) (m0, g0)).1 code).isSome = true ↔
        (recordGet m0 code).isSome = true ∨
          ∃ t ∈ tracks, t.languageCode = code ∧ (t.kind == some "asr") = false) := by
  intro tracks
  induction tracks with
  | nil =>
      intro m0 g0
      simp
  | cons t rest ih =>
      intro m0 g0
      by_cases hk : (t.kind == some "asr") = true
      · rw [List.foldl_cons, buildStep_asr videoId tls (m0, g0) t hk, ih]
        constructor
        · rintro (h | ⟨u, hu, hc, hgen⟩)
          · exact Or.inl h
          · exact Or.inr ⟨u, List.mem_cons_of_mem _ hu, hc, hgen⟩
        · rintro (h | ⟨u, hu, hc, hgen⟩)
          · exact Or.inl h
          · rcases List.mem_cons.mp hu with rfl | hu
            · rw [hk] at hgen
              cases hgen
            · exact Or.inr ⟨u, hu, hc, hgen⟩
      · rw [List.foldl_cons, buildStep_manual videoId tls (m0, g0) t hk, ih,
          recordGet_append_single_isSome]
        constructor
        · rintro ((h | h) | ⟨u, hu, hc, hgen⟩)
          · exact Or.inl h
          · exact Or.inr ⟨t, List.mem_cons_self _ _, h, by simpa using hk⟩
          · exact Or.inr ⟨u, List.mem_cons_of_mem _ hu, hc, hgen⟩
        · rintro (h | ⟨u, hu, hc, hgen⟩)
          · exact Or.inl (Or.inl h)
          · rcases List.mem_cons.mp hu with rfl | hu
            · exact Or.inl (Or.inr hc)
            · exact Or.inr ⟨u, hu, hc, hgen⟩

/-- Keys of the generated record accumulated by the build fold: the initial
keys plus the codes of the asr tracks. -/
theorem buildFold_snd_isSome (videoId : String) (tls : List TranslationLanguage)
    (code : String) :
    ∀ (tracks : List CaptionTrack)
      (m0 g0 : List (String × Transcript)),
      ((recordGet (tracks.foldl (buildStep videoId tls) (m0, g0)).2 code).isSome = true ↔
        (recordGet g0 code).isSome = true ∨
          ∃ t ∈ tracks, t.languageCode = code ∧ (t.kind == some "asr") = true) := by
  intro tracks
  induction tracks with
  | nil =>
      intro m0 g0
      simp
  | cons t rest ih =>
      intro m0 g0
      by_cases hk : (t.kind == some "asr") = true
      · rw [List.foldl_cons, buildStep_asr videoId tls (m0, g0) t hk, ih,
          recordGet_append_single_isSome]
        constructor
        · rintro ((h | h) | ⟨u, hu, hc, hgen⟩)
          · exact Or.inl h
          · exact Or.inr ⟨t, List.mem_cons_self _ _, h, hk⟩
          · exact Or.inr ⟨u, List.mem_cons_of_mem _ hu, hc, hgen⟩
        · rintro (h | ⟨u, hu, hc, hgen⟩)
          · exact Or.inl (Or.inl h)
          · rcases List.mem_cons.mp hu with rfl | hu
            · exact Or.inl (Or.inr hc)
            · exact Or.inr ⟨u, hu, hc, hgen⟩
      · rw [List.foldl_cons, buildStep_manual videoId tls (m0, g0) t hk, ih]
        constructor
        · rintro (h | ⟨u, hu, hc, hgen⟩)
          · exact Or.inl h
          · exact Or.inr ⟨u, List.mem_cons_of_mem _ hu, hc, hgen⟩
        · rintro (h | ⟨u, hu, hc, hgen⟩)
          · exact Or.inl h
          · rcases List.mem_cons.mp hu with rfl | hu
            · rw [hgen] at hk
              cases hk rfl
            · exact Or.inr ⟨u, hu, hc, hgen⟩

/-- C9 (amended): the builder partitions tracks by kind, so a language code
appears in both mappings only when the input itself carries that code on
both an asr track and a non-asr track; when no code occurs with both kinds,
every code appears in at most one of the two mappings. -/
theorem claim_C9_partition (videoId : String) (cj : CaptionsJson)
    (huniq : ∀ t1 ∈ cj.captionTracks.getD [], ∀ t2 ∈ cj.captionTracks.getD [],
      t1.languageCode = t2.languageCode →
        (t1.kind == some "asr") = (t2.kind == some "asr")) :
    ∀ code,
      ¬((recordGet (TranscriptList.build videoId cj).manuallyCreatedTranscripts
            code).isSome = true
        ∧ (recordGet (TranscriptList.build videoId cj).generatedTranscripts
            code).isSome = true) := by
  intro code
  rintro ⟨hm, hg⟩
  rw [show (TranscriptList.build videoId cj).manuallyCreatedTranscripts =
      ((cj.captionTracks.getD []).foldl
        (buildStep videoId ((cj.translationLanguages.getD []).map
          (fun tl => { language := tl.languageName, languageCode := tl.languageCode })))
        ([], [])).1 from rfl,
    buildFold_fst_isSome] at hm
  rw [show (TranscriptList.build videoId cj).generatedTranscripts =
      ((cj.captionTracks.getD []).foldl
        (buildStep videoId ((cj.translationLanguages.getD []).map
          (fun tl => { language := tl.languageName, languageCode := tl.languageCode })))
        ([], [])).2 from rfl,
    buildFold_snd_isSome] at hg
  rcases hm with hm | ⟨t1, ht1, hc1, hk1⟩
  · simp [recordGet] at hm
  rcases hg with hg | ⟨t2, ht2, hc2, hk2⟩
  · simp [recordGet] at hg
  have := huniq t1 ht1 t2 ht2 (hc1.trans hc2.symm)
  rw [hk1, hk2] at this
  cases this

/-- Witness for C9: a two-track input, one manual "en" and one generated
"de", satisfies the kind-uniqueness hypothesis, and "en" is then not in both
mappings. -/
theorem claim_C9_partition_witness :
    ¬((recordGet (TranscriptList.build "v"
          ⟨some [⟨"u1", "English", "en", none, false⟩,
                 ⟨"u2", "German", "de", some "asr", false⟩], none⟩).manuallyCreatedTranscripts
          "en").isSome = true
      ∧ (recordGet (TranscriptList.build "v"
          ⟨some [⟨"u1", "English", "en", none, false⟩,
                 ⟨"u2", "German", "de", some "asr", false⟩], none⟩).generatedTranscripts
          "en").isSome = true) :=
  claim_C9_partition "v"
    ⟨some [⟨"u1", "English", "en", none, false⟩,
           ⟨"u2", "German", "de", some "asr", false⟩], none⟩
    (by decide) "en"

/-- Counterexample for C9: two input tracks share the language code "en"
with different kinds, and the built list then holds "en" in both the
manually-created and the generated mapping. -/
theorem claim_C9_partition_counterexample :
    ((recordGet (TranscriptList.build "v"
        ⟨some [⟨"u1", "English", "en", none, false⟩,
               ⟨"u2", "English", "en", some "asr", false⟩], none⟩).manuallyCreatedTranscripts
        "en").isSome = true)
  ∧ ((recordGet (TranscriptList.build "v"
        ⟨some [⟨"u1", "English", "en", none, false⟩,
               ⟨"u2", "English", "en", some "asr", false⟩], none⟩).generatedTranscripts
        "en").isSome = true) := by
  decide

/-- Evaluation of the parser default string "0". -/
theorem jsParseFloat_zero : jsParseFloat "0" = some 0 := by
  show some ((1 : ℚ) * ((natOfDigits [0] : ℚ) +
      (natOfDigits ([] : List ℕ) : ℚ) / (10 : ℚ) ^ ([] : List ℕ).length)) = some 0
  norm_num [natOfDigits]

/-- Evaluation of the parser default string "0.0". -/
theorem jsParseFloat_zeroZero : jsParseFloat "0.0" = some 0 := by
  show some ((1 : ℚ) * ((natOfDigits [0] : ℚ) +
      (natOfDigits [0] : ℚ) / (10 : ℚ) ^ [(0 : ℕ)].length)) = some 0
  norm_num [natOfDigits]

/-- The start attribute route of the parser agrees with the claim-side
value. -/
theorem parseStart_eq_spec (e : TextElement) :
    jsParseFloat (jsOrDefault e.startAttr "0") = specStartVal e := by
  rcases he : e.startAttr with _ | s
  · simp only [jsOrDefault, specStartVal, he]
    exact jsParseFloat_zero
  · by_cases hs : s = ""
    · subst hs
      simp only [jsOrDefault, specStartVal, he, if_pos rfl]
      exact jsParseFloat_zero
    · simp [jsOrDefault, specStartVal, he, hs]

/-- The duration attribute route of the parser agrees with the claim-side
value. -/
theorem parseDur_eq_spec (e : TextElement) :
    jsParseFloat (jsOrDefault e.durAttr "0.0") = specDurVal e := by
  rcases he : e.durAttr with _ | s
  · simp only [jsOrDefault, specDurVal, he]
    exact jsParseFloat_zeroZero
  · by_cases hs : s = ""
    · subst hs
      simp only [jsOrDefault, specDurVal, he, if_pos rfl]
      exact jsParseFloat_zeroZero
    · simp [jsOrDefault, specDurVal, he, hs]

/-- C7 (amended): the snippet parser emits one snippet per text-bearing node
with non-null text content, in document order with no sorting or
deduplication, and each snippet's start and duration come from the `start`
and `dur` attributes, defaulting to 0 and 0.0 when the attribute is absent
or empty; a non-empty unparsable attribute yields NaN. -/
theorem claim_C7_snippets (clean : String → String) (elements : List TextElement) :
    ((transcriptParserParse clean elements).length =
      (elements.filter (fun e => e.textContent.isSome)).length)
  ∧ (∀ (i : Nat) (e : TextElement),
      (elements.filter (fun e => e.textContent.isSome))[i]? = some e →
      (transcriptParserParse clean elements)[i]? =
        some (⟨clean (e.textContent.getD ""), specStartVal e, specDurVal e⟩ :
          FetchedTranscriptSnippet)) := by
  constructor
  · simp [transcriptParserParse]
  · intro i e he
    unfold transcriptParserParse
    rw [List.getElem?_map, he]
    simp [parseStart_eq_spec, parseDur_eq_spec]

/-- Witness for C7: one element with text "a", start "3" and dur "2". -/
theorem claim_C7_snippets_witness :
    (transcriptParserParse id [⟨some "a", some "3", some "2"⟩])[0]? =
      some (⟨id ((some "a" : Option String).getD ""),
        specStartVal ⟨some "a", some "3", some "2"⟩,
        specDurVal ⟨some "a", some "3", some "2"⟩⟩ : FetchedTranscriptSnippet) :=
  (claim_C7_snippets id [⟨some "a", some "3", some "2"⟩]).2 0
    ⟨some "a", some "3", some "2"⟩ rfl

/-- Counterexample for C7: a present but unparsable start attribute "abc"
yields NaN (`none`), not the claimed default 0. -/
theorem claim_C7_snippets_counterexample :
    transcriptParserParse id [⟨some "hi", some "abc", none⟩] =
      [⟨"hi", none, some 0⟩]
  ∧ (none : Option ℚ) ≠ some 0 := by
  constructor
  · show [(⟨"hi", jsParseFloat "abc", jsParseFloat "0.0"⟩ : FetchedTranscriptSnippet)] = _
    rw [jsParseFloat_zeroZero, show jsParseFloat "abc" = none from rfl]
  · simp

/-- Running the fetcher from try `t` over `k` consecutive blocked failures
lands at try `t + k`, as long as the budget is not exhausted. -/
theorem fetchSkipBlocked (cfg : Option ProxyCfg)
    (attempt : Nat → Except PipelineErr CaptionsJson) :
    ∀ (k t : Nat),
      (∀ i, t ≤ i → i < t + k → ∃ e, attempt i = .error e ∧ isBlockedErr e = true) →
      t + k < effRetries cfg →
      fetchCaptionsJson cfg attempt t = fetchCaptionsJson cfg attempt (t + k) := by
  intro k
  induction k with
  | zero =>
      intro t _ _
      rfl
  | succ k ih =>
      intro t hblock hlt
      obtain ⟨e, he, hbe⟩ := hblock t (Nat.le_refl t) (by omega)
      rw [fetchCaptionsJson, he]
      simp only [hbe, if_true]
      rw [dif_pos (by omega)]
      rw [show t + (k + 1) = (t + 1) + k by omega]
      exact ih (t + 1) (fun i hi1 hi2 => hblock i (by omega) (by omega)) (by omega)

/-- C6: with a positive blocked-retry budget R, a blocked discovery failure
re-runs the whole fetch with an incremented try counter until the attempt
count reaches R; when all R attempts fail blocked, the final blocked error
is re-raised annotated with the proxy configuration; a success or a
non-blocked failure at any reached attempt is returned as is — non-blocked
failures are never retried. -/
theorem claim_C6_retry (cfg : Option ProxyCfg)
    (attempt : Nat → Except PipelineErr CaptionsJson)
    (hR : 0 < effRetries cfg) :
    ((∀ i, i < effRetries cfg → ∃ e, attempt i = .error e ∧ isBlockedErr e = true) →
      ∀ eLast, attempt (effRetries cfg - 1) = .error eLast →
        fetchCaptionsJson cfg attempt 0 = .error (withProxyConfig eLast cfg))
  ∧ (∀ (j : Nat) (v : CaptionsJson), j < effRetries cfg →
      (∀ i, i < j → ∃ e, attempt i = .error e ∧ isBlockedErr e = true) →
      attempt j = .ok v → fetchCaptionsJson cfg attempt 0 = .ok v)
  ∧ (∀ (j : Nat) (e : PipelineErr), j < effRetries cfg →
      (∀ i, i < j → ∃ e2, attempt i = .error e2 ∧ isBlockedErr e2 = true) →
      attempt j = .error e → isBlockedErr e = false →
      fetchCaptionsJson cfg attempt 0 = .error e) := by
  refine ⟨?_, ?_, ?_⟩
  · intro hall eLast heLast
    have hskip := fetchSkipBlocked cfg attempt (effRetries cfg - 1) 0
      (fun i hi1 hi2 => hall i (by omega)) (by omega)
    rw [hskip]
    obtain ⟨e, he, hbe⟩ := hall (effRetries cfg - 1) (by omega)
    rw [fetchCaptionsJson]
    simp only [Nat.zero_add, he, hbe, if_true]
    rw [dif_neg (by omega)]
    rw [he] at heLast
    cases heLast
    rfl
  · intro j v hj hpre hok
    have hskip := fetchSkipBlocked cfg attempt j 0
      (fun i hi1 hi2 => hpre i (by omega)) (by omega)
    rw [hskip]
    rw [fetchCaptionsJson]
    simp [Nat.zero_add, hok]
  · intro j e hj hpre herr hnb
    have hskip := fetchSkipBlocked cfg attempt j 0
      (fun i hi1 hi2 => hpre i (by omega)) (by omega)
    rw [hskip]
    rw [fetchCaptionsJson]
    simp [Nat.zero_add, herr, hnb]

/-- Witness for C6: a budget of 2 with every attempt blocked exhausts both
attempts and re-raises the blocked error annotated with the proxy
configuration. -/
theorem claim_C6_retry_witness :
    fetchCaptionsJson (some ⟨2⟩) (fun _ => .error (.requestBlocked "v" none)) 0 =
      .error (withProxyConfig (.requestBlocked "v" none) (some ⟨2⟩)) :=
  (claim_C6_retry (some ⟨2⟩) (fun _ => .error (.requestBlocked "v" none))
      (by decide)).1
    (fun i _ => ⟨.requestBlocked "v" none, rfl, rfl⟩)
    (.requestBlocked "v" none) rfl

/-- C10: in the SRT and WebVTT renderings, the end timestamp of each cue is
the snippet start plus its duration, clamped down to the next snippet start
when a next snippet exists and starts earlier than that sum (overlapping
cues are truncated, not passed through). -/
theorem claim_C10_clamping (snippets : List FmtSnippet) (i : Nat) (line : FmtSnippet)
    (h : snippets[i]? = some line) :
    (textBasedLines srtFormatter snippets)[i]? =
      some (toString (i + 1) ++ "\n" ++
        (secondsToTimestamp srtFormatter line.start ++ " --> " ++
          secondsToTimestamp srtFormatter (specCueEnd snippets i line)) ++ "\n" ++
        line.text)
  ∧ (textBasedLines webvttFormatter snippets)[i]? =
      some ((secondsToTimestamp webvttFormatter line.start ++ " --> " ++
          secondsToTimestamp webvttFormatter (specCueEnd snippets i line)) ++ "\n" ++
        line.text) := by
  have hi : i < snippets.length := by
    rcases List.getElem?_eq_some.mp h with ⟨hlt, _⟩
    exact hlt
  constructor
  · unfold textBasedLines
    rw [List.getElem?_map, List.getElem?_range hi]
    simp only [Option.map_some']
    rw [h]
    rfl
  · unfold textBasedLines
    rw [List.getElem?_map, List.getElem?_range hi]
    simp only [Option.map_some']
    rw [h]
    rfl

/-- Witness for C10: the first cue of a two-snippet transcript whose second
snippet starts before the first one ends. -/
theorem claim_C10_clamping_witness :
    (textBasedLines srtFormatter [⟨"Hello", 0, 5⟩, ⟨"World", 3, 2⟩])[0]? =
      some (toString (0 + 1) ++ "\n" ++
        (secondsToTimestamp srtFormatter (⟨"Hello", 0, 5⟩ : FmtSnippet).start ++ " --> " ++
          secondsToTimestamp srtFormatter
            (specCueEnd [⟨"Hello", 0, 5⟩, ⟨"World", 3, 2⟩] 0 ⟨"Hello", 0, 5⟩)) ++ "\n" ++
        (⟨"Hello", 0, 5⟩ : FmtSnippet).text)
  ∧ (textBasedLines webvttFormatter [⟨"Hello", 0, 5⟩, ⟨"World", 3, 2⟩])[0]? =
      some ((secondsToTimestamp webvttFormatter (⟨"Hello", 0, 5⟩ : FmtSnippet).start ++ " --> " ++
          secondsToTimestamp webvttFormatter
            (specCueEnd [⟨"Hello", 0, 5⟩, ⟨"World", 3, 2⟩] 0 ⟨"Hello", 0, 5⟩)) ++ "\n" ++
        (⟨"Hello", 0, 5⟩ : FmtSnippet).text) :=
  claim_C10_clamping [⟨"Hello", 0, 5⟩, ⟨"World", 3, 2⟩] 0 ⟨"Hello", 0, 5⟩ rfl

-- ## Extractor lemmas

/-- The two-counter scan of the parser loop equals the claim-side
single-depth scan, where the depth is the difference of the counters. -/
theorem scanBody_eq_specScan :
    ∀ (l : List Char) (cb d : Nat) (inQ esc : Bool), 1 ≤ d →
      scanBody (cb + d) cb inQ esc l = specScan d inQ esc l := by
  intro l
  induction l with
  | nil =>
      intro cb d inQ esc hd
      rfl
  | cons c rest ih =>
      intro cb d inQ esc hd
      cases esc with
      | true =>
          simp [scanBody, specScan, ih cb d inQ false hd]
      | false =>
          by_cases hbs : c = '\\'
          · subst hbs
            simp [scanBody, specScan, ih cb d inQ true hd]
          · by_cases hq : c = '"'
            · subst hq
              simp [scanBody, specScan, ih cb d (!inQ) false hd]
            · cases inQ with
              | true =>
                  simp [scanBody, specScan, hbs, hq,
                    show ¬(cb + d = cb) from by omega,
                    show ¬(d = 0) from by omega, ih cb d true false hd]
              | false =>
                  by_cases hcL : c = braceL
                  · have hcR : ¬c = braceR := by
                      subst hcL
                      decide
                    simp [scanBody, specScan, braceL, braceR, hbs, hq, hcL, hcR,
                      show ¬(cb + d + 1 = cb) from by omega,
                      show cb + d + 1 = cb + (d + 1) from rfl,
                      ih cb (d + 1) false false (by omega)]
                  · by_cases hcR : c = braceR
                    · by_cases hd1 : d = 1
                      · subst hd1
                        simp [scanBody, specScan, braceL, braceR, hbs, hq, hcL, hcR]
                      · simp [scanBody, specScan, braceL, braceR, hbs, hq, hcL, hcR,
                          show ¬(cb + d = cb + 1) from by omega,
                          show ¬(cb + 1 + (d - 1) = cb + 1) from by omega,
                          show ¬(d - 1 = 0) from by omega,
                          show cb + d = (cb + 1) + (d - 1) from by omega,
                          ih (cb + 1) (d - 1) false false (by omega)]
                    · simp [scanBody, specScan, hbs, hq, hcL, hcR,
                        show ¬(cb + d = cb) from by omega,
                        show ¬(d = 0) from by omega, ih cb d false false hd]

/-- When the needle does not occur, the split leaves the input whole,
whatever the fuel. -/
theorem splitAllGas_of_none (needle l : List Char)
    (h : splitFirst needle l = none) : ∀ n, splitAllGas needle n l = [l] := by
  intro n
  cases n with
  | zero => rfl
  | succ n => simp [splitAllGas, h]

/-- A needle occurring exactly once splits the input into exactly two
segments. -/
theorem jsSplit_pair (needle html a rest : List Char)
    (h1 : splitFirst needle html = some (a, rest))
    (h2 : splitFirst needle rest = none) :
    jsSplit html needle = [a, rest] := by
  unfold jsSplit
  simp [splitAllGas, h1, splitAllGas_of_none needle rest h2]

/-- A brace-free prefix does not change where the first brace is found. -/
theorem dropUntilBrace_append (mid l : List Char) (h : braceL ∉ mid) :
    dropUntilBrace (mid ++ l) = dropUntilBrace l := by
  induction mid with
  | nil => rfl
  | cons c rest ih =>
      have hc : ¬(c = braceL) := by
        intro e
        exact h (e ▸ List.mem_cons_self c rest)
      have hrest : braceL ∉ rest := fun hm => h (List.mem_cons_of_mem c hm)
      simp [dropUntilBrace, hc, ih hrest]

/-- A delimited object exists only on input starting with an opening
brace. -/
theorem specDelimit_shape (l obj : List Char) (h : specDelimit l = some obj) :
    ∃ r, l = braceL :: r := by
  cases l with
  | nil => cases h
  | cons c rest =>
      by_cases hc : c = braceL
      · exact ⟨rest, by rw [hc]⟩
      · simp [specDelimit, hc] at h

/-- On input starting with an opening brace — which is the only input the
parser hands it — the extraction loop computes exactly the claim-side
delimited object. -/
theorem extractBalanced_eq_specDelimit (l : List Char) :
    extractBalanced (braceL :: l) = specDelimit (braceL :: l) := by
  have hscan := scanBody_eq_specScan l 0 1 false false (by omega)
  simp [extractBalanced, specDelimit]
  rw [hscan]

/-- The needle built by the parser for the player-response variable. -/
theorem ytNeedle_eq : "var ".toList ++ ytVarName = ytNeedle := by decide

/-- The first-brace suffix starts with an opening brace. -/
theorem dropUntilBrace_shape (l j : List Char) (h : dropUntilBrace l = some j) :
    ∃ r, j = braceL :: r := by
  induction l with
  | nil => cases h
  | cons c rest ih =>
      by_cases hc : c = braceL
      · subst hc
        simp [dropUntilBrace] at h
        exact ⟨rest, h.symm⟩
      · simp only [dropUntilBrace, if_neg hc] at h
        exact ih h

/-- C1 (amended): when `var ytInitialPlayerResponse` occurs exactly once in
the page, and a brace-balanced object (per the quote- and escape-aware
depth scan) starts at the first opening brace after it, the parser hands
exactly that delimited substring to JSON.parse and returns its value. -/
theorem claim_C1_extraction {J : Type} (jsonParse : List Char → Option J)
    (html a mid jsonStr obj : List Char) (videoId : String) (v : J)
    (h1 : splitFirst ytNeedle html = some (a, mid ++ jsonStr))
    (h2 : splitFirst ytNeedle (mid ++ jsonStr) = none)
    (h4 : braceL ∉ mid)
    (h5 : specDelimit jsonStr = some obj)
    (h6 : jsonParse obj = some v) :
    jsVarParseRaw ytVarName html = some obj ∧
    jsVarParse jsonParse ytVarName html videoId = .ok v := by
  have hraw : jsVarParseRaw ytVarName html = some obj := by
    simp only [jsVarParseRaw, ytNeedle_eq]
    rw [jsSplit_pair ytNeedle html a (mid ++ jsonStr) h1 h2]
    obtain ⟨r, hr⟩ := specDelimit_shape jsonStr obj h5
    subst hr
    simp only [List.getElem?_cons_succ, List.getElem?_cons_zero]
    rw [dropUntilBrace_append mid (braceL :: r) h4]
    simp [dropUntilBrace, extractBalanced_eq_specDelimit, h5]
  refine ⟨hraw, ?_⟩
  unfold jsVarParse
  rw [hraw]
  simp [h6]

/-- Witness for C1: a page with the variable once and the object
`\x7b"a": 1\x7d` followed by trailing content. -/
theorem claim_C1_extraction_witness :
    jsVarParseRaw ytVarName
      ("var ytInitialPlayerResponse = \x7b\"a\": 1\x7d tail".toList) =
      some ("\x7b\"a\": 1\x7d".toList)
  ∧ jsVarParse (fun l => some l) ytVarName
      ("var ytInitialPlayerResponse = \x7b\"a\": 1\x7d tail".toList) "v" =
      .ok ("\x7b\"a\": 1\x7d".toList) :=
  claim_C1_extraction (fun l => some l)
    ("var ytInitialPlayerResponse = \x7b\"a\": 1\x7d tail".toList)
    [] (" = ".toList) ("\x7b\"a\": 1\x7d tail".toList) ("\x7b\"a\": 1\x7d".toList)
    "v" ("\x7b\"a\": 1\x7d".toList)
    (by decide) (by decide) (by decide) (by decide) rfl

/-- Counterexample for C1: the variable name occurs again inside a string
of the brace-balanced object. The claim-side scan delimits the object, but
the JS split truncates the page at the second occurrence, so the parser
fails instead of returning the value. -/
theorem claim_C1_extraction_counterexample :
    splitFirst ytNeedle
      ("var ytInitialPlayerResponse = \x7b\"a\": \"var ytInitialPlayerResponse\"\x7d".toList) =
      some ([], " = \x7b\"a\": \"var ytInitialPlayerResponse\"\x7d".toList)
  ∧ specDelimit ("\x7b\"a\": \"var ytInitialPlayerResponse\"\x7d".toList) =
      some ("\x7b\"a\": \"var ytInitialPlayerResponse\"\x7d".toList)
  ∧ jsVarParse (fun l => some l) ytVarName
      ("var ytInitialPlayerResponse = \x7b\"a\": \"var ytInitialPlayerResponse\"\x7d".toList)
      "v" = .error "v" :=
  ⟨by decide, by decide, by rfl⟩

/-- C8 (amended): when `var ytInitialPlayerResponse` occurs at most once in
the page, the parser fails with the data-unparsable error carrying the video
id exactly when the variable pattern does not occur, or no opening brace
follows its occurrence, or the brace depth never returns to zero before the
input ends, or the delimited substring fails to parse as JSON; in every
other case a full value is returned. -/
theorem claim_C8_failure {J : Type} (jsonParse : List Char → Option J)
    (html : List Char) (videoId : String)
    (honce : ∀ a rest, splitFirst ytNeedle html = some (a, rest) →
      splitFirst ytNeedle rest = none) :
    (jsVarParse jsonParse ytVarName html videoId = .error videoId ↔
      splitFirst ytNeedle html = none
      ∨ (∃ a rest, splitFirst ytNeedle html = some (a, rest) ∧
          dropUntilBrace rest = none)
      ∨ (∃ a rest jsonStr, splitFirst ytNeedle html = some (a, rest) ∧
          dropUntilBrace rest = some jsonStr ∧ specDelimit jsonStr = none)
      ∨ (∃ a rest jsonStr obj, splitFirst ytNeedle html = some (a, rest) ∧
          dropUntilBrace rest = some jsonStr ∧ specDelimit jsonStr = some obj ∧
          jsonParse obj = none)) := by
  rcases hsf : splitFirst ytNeedle html with _ | ⟨a, rest⟩
  · have herr : jsVarParse jsonParse ytVarName html videoId = .error videoId := by
      simp only [jsVarParse, jsVarParseRaw, ytNeedle_eq]
      rw [show jsSplit html ytNeedle = [html] from splitAllGas_of_none _ _ hsf _]
      rfl
    constructor
    · intro _
      exact Or.inl rfl
    · intro _
      exact herr
  · have hnone := honce a rest hsf
    have hsplit : jsSplit html ytNeedle = [a, rest] :=
      jsSplit_pair _ _ _ _ hsf hnone
    have hstep : jsVarParse jsonParse ytVarName html videoId =
        (match dropUntilBrace rest with
          | none => .error videoId
          | some jsonStr =>
              match extractBalanced jsonStr with
              | none => .error videoId
              | some jsonData =>
                  match jsonParse jsonData with
                  | none => .error videoId
                  | some v => .ok v) := by
      simp only [jsVarParse, jsVarParseRaw, ytNeedle_eq]
      rw [hsplit]
      simp only [List.getElem?_cons_succ, List.getElem?_cons_zero]
      rcases dropUntilBrace rest with _ | jsonStr
      · rfl
      · rcases extractBalanced jsonStr with _ | jsonData
        · rfl
        · rfl
    rcases hdb : dropUntilBrace rest with _ | jsonStr
    · rw [hdb] at hstep
      constructor
      · intro _
        exact Or.inr (Or.inl ⟨a, rest, rfl, hdb⟩)
      · intro _
        exact hstep
    · obtain ⟨r, hr⟩ := dropUntilBrace_shape rest jsonStr hdb
      subst hr
      rw [hdb] at hstep
      have hstep2 : jsVarParse jsonParse ytVarName html videoId =
          (match specDelimit (braceL :: r) with
            | none => .error videoId
            | some jsonData =>
                match jsonParse jsonData with
                | none => .error videoId
                | some v => .ok v) := by
        rw [← extractBalanced_eq_specDelimit r]
        exact hstep
      rcases hsd : specDelimit (braceL :: r) with _ | obj
      · rw [hsd] at hstep2
        constructor
        · intro _
          exact Or.inr (Or.inr (Or.inl ⟨a, rest, braceL :: r, rfl, hdb, hsd⟩))
        · intro _
          exact hstep2
      · rw [hsd] at hstep2
        have hstep3 : jsVarParse jsonParse ytVarName html videoId =
            (match jsonParse obj with
              | none => .error videoId
              | some v => .ok v) := hstep2
        rcases hjp : jsonParse obj with _ | v
        · rw [hjp] at hstep3
          constructor
          · intro _
            exact Or.inr (Or.inr (Or.inr ⟨a, rest, braceL :: r, obj, rfl, hdb, hsd, hjp⟩))
          · intro _
            exact hstep3
        · rw [hjp] at hstep3
          constructor
          · intro h
            rw [hstep3] at h
            cases h
          · rintro (h | ⟨a2, rest2, h, hdb2⟩ |
              ⟨a2, rest2, js2, h, hdb2, hsd2⟩ |
              ⟨a2, rest2, js2, obj2, h, hdb2, hsd2, hjp2⟩)
            · cases h
            · injection h with h
              injection h with he1 he2
              subst he2
              rw [hdb] at hdb2
              cases hdb2
            · injection h with h
              injection h with he1 he2
              subst he2
              rw [hdb] at hdb2
              injection hdb2 with hdb2
              subst hdb2
              rw [hsd] at hsd2
              cases hsd2
            · injection h with h
              injection h with he1 he2
              subst he2
              rw [hdb] at hdb2
              injection hdb2 with hdb2
              subst hdb2
              rw [hsd] at hsd2
              injection hsd2 with hsd2
              subst hsd2
              rw [hjp] at hjp2
              cases hjp2

/-- Witness for C8: a page without the variable fails with the
data-unparsable error carrying the video id. -/
theorem claim_C8_failure_witness :
    jsVarParse (fun l => some l) ytVarName ("zzz".toList) "v" = .error "v" :=
  (claim_C8_failure (fun l => some l) ("zzz".toList) "v"
    (fun a rest h => by
      rw [show splitFirst ytNeedle ("zzz".toList) = none from by decide] at h
      cases h)).mpr
    (Or.inl (by decide))

/-- Counterexample for C8: the variable pattern occurs twice, with a brace
and a balanced parseable object after its first occurrence, so none of the
four failure conditions of the claim hold; yet the parser fails, because
the JS split cuts the page at the second occurrence and the segment between
the occurrences holds no brace. -/
theorem claim_C8_failure_counterexample :
    jsVarParse (fun l => some l) ytVarName
      ("var ytInitialPlayerResponse x var ytInitialPlayerResponse \x7b\x7d".toList)
      "v" = .error "v"
  ∧ splitFirst ytNeedle
      ("var ytInitialPlayerResponse x var ytInitialPlayerResponse \x7b\x7d".toList) =
      some ([], " x var ytInitialPlayerResponse \x7b\x7d".toList)
  ∧ dropUntilBrace (" x var ytInitialPlayerResponse \x7b\x7d".toList) =
      some ("\x7b\x7d".toList)
  ∧ specDelimit ("\x7b\x7d".toList) = some ("\x7b\x7d".toList) :=
  ⟨by rfl, by decide, by decide, by decide⟩
